import Mathlib

/-!
Verification development for the Intelligent Log Analyzer's
ingestion → normalization → windowed-analytics pipeline.

The repository ships the browser dashboard (api.js, SPA pages) together
with the design documents of the backend core (parsers, ingestion
coordinator, feature windower, anomaly scorer, error clusterer).  The
backend service code itself is not part of the source tree, so the core
components are modelled here from the specification's contracts; the
HTTP client `request` function is embedded directly from
static/js/api.js.
-/

/-- Per-line parse outcome, `parsed | partial | failed`
(the `partial` value is named `partialParse` here). -/
inductive ParseStatus where
  | parsed
  | partialParse
  | failed
deriving DecidableEq, Repr

/-- Grammar candidates recognized by the format detector. -/
inductive FormatKind where
  | appLog
  | accessLog
  | unknown
deriving DecidableEq, Repr

/-- All characters are decimal digits. -/
def charsDigits (cs : List Char) : Bool :=
  cs.all (fun c => c.isDigit)

/-- Reads a digit string as a natural number (used as the abstract
timestamp encoding of the model). -/
def natOfDigits (cs : List Char) : Nat :=
  cs.foldl (fun n c => 10 * n + (c.toNat - 48)) 0

/-- Modelled from the spec: the line begins with an ISO-8601-like
timestamp token, `YYYY-MM-DDTHH:MM:SS` or `YYYY-MM-DD HH:MM:SS,mmm`
(first nineteen characters checked positionally). -/
def startsIso (line : String) : Bool :=
  match line.toList with
  | y1 :: y2 :: y3 :: y4 :: '-' :: m1 :: m2 :: '-' :: d1 :: d2 :: sep ::
      h1 :: h2 :: ':' :: n1 :: n2 :: ':' :: s1 :: s2 :: _ =>
      charsDigits [y1, y2, y3, y4, m1, m2, d1, d2, h1, h2, n1, n2, s1, s2]
        && (sep == 'T' || sep == ' ')
  | _ => false

/-- HTTP method token at the head of a character stream. -/
def startsMethod (cs : List Char) : Bool :=
  match cs with
  | 'G' :: 'E' :: 'T' :: ' ' :: _ => true
  | 'P' :: 'O' :: 'S' :: 'T' :: ' ' :: _ => true
  | 'P' :: 'U' :: 'T' :: ' ' :: _ => true
  | 'H' :: 'E' :: 'A' :: 'D' :: ' ' :: _ => true
  | 'D' :: 'E' :: 'L' :: 'E' :: 'T' :: 'E' :: ' ' :: _ => true
  | _ => false

/-- Modelled from the spec: the line contains a quoted HTTP request
token such as `"GET /path HTTP/1.1"`. -/
def hasQuotedRequest : List Char → Bool
  | [] => false
  | c :: rest => (c == '"' && startsMethod rest) || hasQuotedRequest rest

/-- Modelled from the spec: the line contains a bracketed timestamp of
the form `[dd/Mon/yyyy:HH:MM:SS ±HHMM]` (detected by the
`[dd/` shape). -/
def hasBracketTs : List Char → Bool
  | [] => false
  | c :: rest =>
      (match c, rest with
       | '[', d1 :: d2 :: '/' :: _ => d1.isDigit && d2.isDigit
       | _, _ => false) || hasBracketTs rest

/-- Characters following the first double quote, if any. -/
def afterQuote : List Char → Option (List Char)
  | [] => none
  | c :: rest => if c == '"' then some rest else afterQuote rest

/-- Characters up to (excluding) the next double quote, if one exists. -/
def upToQuote : List Char → Option (List Char)
  | [] => none
  | c :: rest => if c == '"' then some [] else (upToQuote rest).map (fun l => c :: l)

/-- Characters following the first opening bracket, if any. -/
def afterOpenBracket : List Char → Option (List Char)
  | [] => none
  | c :: rest => if c == '[' then some rest else afterOpenBracket rest

/-- Digits of the bracketed section, up to the closing bracket. -/
def digitsToClose : List Char → Option (List Char)
  | [] => none
  | c :: rest =>
      if c == ']' then some []
      else (digitsToClose rest).map (fun l => if c.isDigit then c :: l else l)

/-- Modelled from the spec: bracketed access-log timestamp, abstracted
to the numeric encoding of its digit characters. -/
def bracketTsNat (line : String) : Option Nat :=
  (afterOpenBracket line.toList).bind (fun rest =>
    (digitsToClose rest).map natOfDigits)

/-- Modelled from the spec: the literal request-line text between the
first pair of double quotes, when it starts with an HTTP method. -/
def quotedRequest (line : String) : Option String :=
  (afterQuote line.toList).bind (fun rest =>
    if startsMethod rest then (upToQuote rest).map String.mk else none)

/-- Modelled from the spec: numeric status-code token following the
quoted request section. -/
def statusCodeOf (line : String) : Option Nat :=
  ((afterQuote line.toList).bind afterQuote).bind (fun rest =>
    let tok := (rest.dropWhile (fun c => c == ' ')).takeWhile (fun c => c.isDigit)
    if tok.isEmpty then none else some (natOfDigits tok))

/-- Modelled from the spec: FormatDetector policy, evaluated in fixed
priority order with first match winning — AppLog on an ISO-like leading
timestamp, then AccessLog on a bracketed timestamp or quoted request,
otherwise no grammar. -/
def detectFormat (line : String) : FormatKind :=
  if startsIso line then FormatKind.appLog
  else if hasBracketTs line.toList || hasQuotedRequest line.toList then FormatKind.accessLog
  else FormatKind.unknown

/-- Known level tokens, compared after uppercasing. -/
def levelNames : List String :=
  ["INFO", "WARN", "WARNING", "ERROR", "DEBUG", "TRACE", "CRITICAL"]

/-- ASCII uppercase of one character. -/
def upChar (c : Char) : Char :=
  match c with
  | 'a' => 'A' | 'b' => 'B' | 'c' => 'C' | 'd' => 'D' | 'e' => 'E'
  | 'f' => 'F' | 'g' => 'G' | 'h' => 'H' | 'i' => 'I' | 'j' => 'J'
  | 'k' => 'K' | 'l' => 'L' | 'm' => 'M' | 'n' => 'N' | 'o' => 'O'
  | 'p' => 'P' | 'q' => 'Q' | 'r' => 'R' | 's' => 'S' | 't' => 'T'
  | 'u' => 'U' | 'v' => 'V' | 'w' => 'W' | 'x' => 'X' | 'y' => 'Y'
  | 'z' => 'Z'
  | _ => c

/-- ASCII uppercase of a string. -/
def upString (s : String) : String :=
  String.mk (s.toList.map upChar)

/-- Modelled from the spec: level normalization — uppercase, WARN and
WARNING stored under the single canonical label WARNING. -/
def normalizeLevel (s : String) : String :=
  let u := upString s
  if u = "WARN" then "WARNING" else u

/-- Grammar-specific extraction result: every LogEntry field except the
verbatim raw line and the row identity. -/
structure ParseOutcome where
  parse_status : ParseStatus
  timestamp : Option Nat
  level : Option String
  service : Option String
  message : Option String
  parse_error : Option String
  parser_name : Option String
deriving DecidableEq, Repr

/-- Modelled from the spec: AppLogParser — extracts timestamp, level
token, service token, and the remaining text as message; `parsed` only
when all four are extracted, `partial` when the timestamp succeeds but
level or service is missing or unrecognized, `failed` when the
timestamp itself cannot be parsed. -/
def appLogParse (line : String) : ParseOutcome :=
  match line.toList with
  | y1 :: y2 :: y3 :: y4 :: '-' :: m1 :: m2 :: '-' :: d1 :: d2 :: sep ::
      h1 :: h2 :: ':' :: n1 :: n2 :: ':' :: s1 :: s2 :: _ =>
      if charsDigits [y1, y2, y3, y4, m1, m2, d1, d2, h1, h2, n1, n2, s1, s2] then
        let ts := natOfDigits [y1, y2, y3, y4, m1, m2, d1, d2, h1, h2, n1, n2, s1, s2]
        let toks := line.splitOn " "
        let rest := if sep == 'T' then toks.drop 1 else toks.drop 2
        match rest with
        | lvl :: svc :: msgToks =>
            if levelNames.contains (upString lvl) then
              { parse_status := ParseStatus.parsed
                timestamp := some ts
                level := some (normalizeLevel lvl)
                service := some svc
                message := some (String.intercalate " " msgToks)
                parse_error := none
                parser_name := some "app_v1" }
            else
              { parse_status := ParseStatus.partialParse
                timestamp := some ts
                level := none
                service := none
                message := some (String.intercalate " " rest)
                parse_error := some "level missing or unrecognized"
                parser_name := some "app_v1" }
        | _ =>
            { parse_status := ParseStatus.partialParse
              timestamp := some ts
              level := none
              service := none
              message := none
              parse_error := some "level and service missing"
              parser_name := some "app_v1" }
      else
        { parse_status := ParseStatus.failed
          timestamp := none
          level := none
          service := none
          message := none
          parse_error := some "timestamp unparsable"
          parser_name := some "app_v1" }
  | _ =>
      { parse_status := ParseStatus.failed
        timestamp := none
        level := none
        service := none
        message := none
        parse_error := some "timestamp unparsable"
        parser_name := some "app_v1" }

/-- Modelled from the spec: AccessLogParser — `parsed` when timestamp,
request line and status code are all present and well-formed, `partial`
when the request line is malformed but timestamp and status recovered,
`failed` otherwise; `message` is the literal request-line text when
recoverable. -/
def accessLogParse (line : String) : ParseOutcome :=
  match bracketTsNat line, quotedRequest line, statusCodeOf line with
  | some ts, some req, some _ =>
      { parse_status := ParseStatus.parsed
        timestamp := some ts
        level := none
        service := none
        message := some req
        parse_error := none
        parser_name := some "access_combined_v1" }
  | some ts, none, some _ =>
      { parse_status := ParseStatus.partialParse
        timestamp := some ts
        level := none
        service := none
        message := none
        parse_error := some "request line malformed"
        parser_name := some "access_combined_v1" }
  | _, _, _ =>
      { parse_status := ParseStatus.failed
        timestamp := none
        level := none
        service := none
        message := none
        parse_error := some "access log fields missing"
        parser_name := some "access_combined_v1" }

/-- The full field set of a LogEntry row minus the row identity. -/
structure EntryFields where
  raw_line : String
  parse_status : ParseStatus
  timestamp : Option Nat
  level : Option String
  service : Option String
  message : Option String
  parse_error : Option String
  parser_name : Option String
deriving DecidableEq, Repr

/-- Attach the verbatim raw line to a grammar extraction result. -/
def withRaw (raw : String) (o : ParseOutcome) : EntryFields :=
  { raw_line := raw
    parse_status := o.parse_status
    timestamp := o.timestamp
    level := o.level
    service := o.service
    message := o.message
    parse_error := o.parse_error
    parser_name := o.parser_name }

/-- Modelled from the spec: LineProcessor contract
`process(raw_line) → LogEntry fields`, a total function — dispatches on
the detected grammar, and when no grammar matched returns a `failed`
result with reason "unrecognized format"; every branch produces a
result carrying the raw line. -/
def processLine (raw : String) : EntryFields :=
  match detectFormat raw with
  | FormatKind.appLog => withRaw raw (appLogParse raw)
  | FormatKind.accessLog => withRaw raw (accessLogParse raw)
  | FormatKind.unknown =>
      withRaw raw
        { parse_status := ParseStatus.failed
          timestamp := none
          level := none
          service := none
          message := none
          parse_error := some "unrecognized format"
          parser_name := none }

/-- One persisted `log_entries` row. -/
structure LogEntry where
  log_file_id : Nat
  line_number : Nat
  raw_line : String
  parse_status : ParseStatus
  timestamp : Option Nat
  level : Option String
  service : Option String
  message : Option String
  parse_error : Option String
  parser_name : Option String
deriving DecidableEq, Repr

/-- Build the row for one input line of one file. -/
def mkEntry (fid ln : Nat) (raw : String) : LogEntry :=
  let f := processLine raw
  { log_file_id := fid
    line_number := ln
    raw_line := f.raw_line
    parse_status := f.parse_status
    timestamp := f.timestamp
    level := f.level
    service := f.service
    message := f.message
    parse_error := f.parse_error
    parser_name := f.parser_name }

/-- Modelled from the spec: ingestion streams a file's lines through
the line processor, producing one row per input line with 1-based line
numbers. -/
def ingestFile (fid : Nat) (lines : List String) : List LogEntry :=
  lines.enum.map (fun p => mkEntry fid (p.1 + 1) p.2)

/-- Natural key of a row: the unique (log_file_id, line_number) pair. -/
def entryKey (e : LogEntry) : Nat × Nat := (e.log_file_id, e.line_number)

/-- Key equality test used by the duplicate guard. -/
def keyMatches (a b : LogEntry) : Bool :=
  a.log_file_id == b.log_file_id && a.line_number == b.line_number

/-- Modelled from the spec: the persistence boundary rejects or skips
an insert whose (log_file_id, line_number) already exists — the unique
constraint on that pair is the enforcement mechanism. -/
def insertSkip (table : List LogEntry) (e : LogEntry) : List LogEntry :=
  if table.any (fun x => keyMatches x e) then table else table ++ [e]

/-- Modelled from the spec: ingest a file's lines into the entry table
through the duplicate-rejecting persistence boundary. -/
def ingestInto (table : List LogEntry) (fid : Nat) (lines : List String) : List LogEntry :=
  (ingestFile fid lines).foldl insertSkip table

/-- Number of rows of the table belonging to one file. -/
def countFile (fid : Nat) (table : List LogEntry) : Nat :=
  table.countP (fun e => e.log_file_id == fid)

/-- Modelled from the spec: `LogFile.status` values
`uploaded | processing | processed | failed`. -/
inductive FileStatus where
  | uploaded
  | processing
  | processed
  | failed
deriving DecidableEq, Repr

/-- Modelled from the spec: the transition table of the LogFile state
machine `uploaded → processing → (processed | failed)`. -/
def allowedTransition : FileStatus → FileStatus → Bool
  | FileStatus.uploaded, FileStatus.processing => true
  | FileStatus.processing, FileStatus.processed => true
  | FileStatus.processing, FileStatus.failed => true
  | _, _ => false

/-- Modelled from the spec: the status trace of one ingestion job — on
job start `uploaded → processing`, then on normal completion
`processing → processed`, on an unrecoverable fault
`processing → failed`. -/
def ingestLifecycle (ok : Bool) : List FileStatus :=
  [FileStatus.uploaded, FileStatus.processing,
   if ok then FileStatus.processed else FileStatus.failed]

/-- Floor of a time value aligned to the window width. -/
def alignFloor (t w : Nat) : Nat := t / w * w

/-- Modelled from the spec: number of fixed-width windows covering the
range, starting at the range's floor aligned to the window width. -/
def numWindows (rStart rEnd w : Nat) : Nat :=
  (rEnd - alignFloor rStart w + w - 1) / w

/-- Modelled from the spec: FeatureWindower window starts — half-open,
non-overlapping, contiguous windows of width `w` starting at the
aligned floor of the range start. -/
def windowStarts (rStart rEnd w : Nat) : List Nat :=
  (List.range (numWindows rStart rEnd w)).map (fun i => alignFloor rStart w + i * w)

/-- Entry has a non-null timestamp falling in the half-open window
starting at `ws` of width `w`. -/
def tsInWindow (w ws : Nat) (e : LogEntry) : Bool :=
  match e.timestamp with
  | some t => decide (ws ≤ t) && decide (t < ws + w)
  | none => false

/-- Per-window `total_count` feature: entries with non-null timestamp
inside the window. -/
def windowTotalCount (entries : List LogEntry) (w ws : Nat) : Nat :=
  entries.countP (tsInWindow w ws)

/-- Entry has a non-null timestamp inside the half-open analytics
range. -/
def tsInRange (rStart rEnd : Nat) (e : LogEntry) : Bool :=
  match e.timestamp with
  | some t => decide (rStart ≤ t) && decide (t < rEnd)
  | none => false

/-- Minimum of a list of rationals (0 on the empty list). -/
def listMin : List ℚ → ℚ
  | [] => 0
  | [x] => x
  | x :: y :: ys => min x (listMin (y :: ys))

/-- Maximum of a list of rationals (0 on the empty list). -/
def listMax : List ℚ → ℚ
  | [] => 0
  | [x] => x
  | x :: y :: ys => max x (listMax (y :: ys))

/-- Deterministic linear congruential generator standing for the
anomaly model's seeded randomness. -/
def lcg (s : Nat) : Nat := (1103515245 * s + 12345) % 2147483648

/-- Modelled from the spec: raw outlier-model outputs for the ordered
window feature vectors — a deterministic function of the fixed random
seed and the feature values, one raw score per window. -/
def rawScores (seed : Nat) (features : List ℚ) : List ℚ :=
  features.enum.map (fun p =>
    p.2 + (((lcg (seed + p.1)) % 1000 : Nat) : ℚ) / 1000)

/-- Modelled from the spec: rescaling of raw model outputs to the
closed interval from 0 to 1 (min-max normalization; a constant
midpoint when all raw outputs coincide). -/
def minMaxRescale (l : List ℚ) : List ℚ :=
  if listMax l = listMin l then l.map (fun _ => 1 / 2)
  else l.map (fun x => (x - listMin l) / (listMax l - listMin l))

/-- Modelled from the spec: AnomalyScorer — refit on each run from the
full feature set, deterministic given a fixed random seed, emitting per
window a score rescaled to the unit interval. -/
def anomalyScorer (seed : Nat) (features : List ℚ) : List ℚ :=
  minMaxRescale (rawScores seed features)

/-- One ErrorCluster row of a clustering run. -/
structure ClusterSummary where
  label : Fin 20
  example_message : Option String
  count : Nat
deriving DecidableEq, Repr

/-- Modelled from the spec: ErrorClusterer — groups messages into at
most 20 clusters; the centroid geometry of the vectorizer is abstracted
as a total assignment of each message to one of 20 labels, and each
resulting cluster reports an example message and its member count. -/
def errorClusterer (assign : String → Fin 20) (msgs : List String) : List ClusterSummary :=
  (msgs.map assign).dedup.map (fun lab =>
    { label := lab
      example_message := (msgs.filter (fun m => assign m == lab)).head?
      count := (msgs.map assign).count lab })

/-- Browser storage and location state touched by the API client. -/
structure ClientState where
  token : Option String
  user : Option String
  hash : String
deriving DecidableEq, Repr

/-- Parsed JSON response body: the optional `detail` field consulted on
errors, plus an opaque payload tag distinguishing bodies. -/
structure JsBody where
  detail : Option String
  payload : Nat
deriving DecidableEq, Repr

/-- An HTTP response as seen by `fetch`. -/
structure HttpResponse where
  status : Nat
  body : JsBody
deriving DecidableEq, Repr

/-- The `ok` property of a fetch response: status in the inclusive
range 200 to 299. -/
def resOk (status : Nat) : Bool :=
  decide (200 ≤ status) && decide (status ≤ 299)

/-- Outcome of `API.request`: either returned data (null for 204) or a
thrown error message. -/
inductive RequestResult where
  | okData (data : Option JsBody)
  | thrown (message : String)
deriving DecidableEq, Repr

/-- True exactly when the request threw. -/
def isThrown : RequestResult → Bool
  | RequestResult.thrown _ => true
  | RequestResult.okData _ => false

/-- The fallback error text built from the status code. -/
def fallbackMessage (status : Nat) : String :=
  "Request failed (" ++ toString status ++ ")"

/-- JavaScript `data.detail || fallback`: the detail string when
present and truthy (non-empty), else the fallback text. -/
def detailOrFallback (status : Nat) (d : Option String) : String :=
  match d with
  | some s => if s = "" then fallbackMessage status else s
  | none => fallbackMessage status

/-- Embedding of the response handling of `request` in
static/js/api.js: on 401 clear the stored token and user, set the
location hash to the login route and throw "Session expired"; on 204
return null; otherwise parse the body and throw the detail (or a
status-code message) when the response is not ok, else return the
parsed body. -/
def handleResponse (st : ClientState) (res : HttpResponse) :
    ClientState × RequestResult :=
  if res.status = 401 then
    ({ st with token := none, user := none, hash := "#/login" },
     RequestResult.thrown "Session expired")
  else if res.status = 204 then (st, RequestResult.okData none)
  else if resOk res.status then (st, RequestResult.okData (some res.body))
  else (st, RequestResult.thrown (detailOrFallback res.status res.body.detail))

/-- C2: for every input line, regardless of the parse outcome, the
produced entry's raw_line field equals the exact original line text,
unmodified. -/
theorem c2_raw_line_verbatim (raw : String) : (processLine raw).raw_line = raw := by
  unfold processLine
  cases detectFormat raw <;> rfl

/-- C4: the LogFile status space is exactly the four listed values, the
transition table admits exactly the three listed transitions, and every
ingestion-job lifecycle is a chain of allowed transitions. -/
theorem c4_status_state_machine (s t : FileStatus) (ok : Bool) :
    (s = FileStatus.uploaded ∨ s = FileStatus.processing ∨
      s = FileStatus.processed ∨ s = FileStatus.failed)
    ∧ (allowedTransition s t = true ↔
        ((s = FileStatus.uploaded ∧ t = FileStatus.processing) ∨
         (s = FileStatus.processing ∧ t = FileStatus.processed) ∨
         (s = FileStatus.processing ∧ t = FileStatus.failed)))
    ∧ List.Chain' (fun a b => allowedTransition a b = true) (ingestLifecycle ok) := by
  refine ⟨?_, ?_, ?_⟩
  · cases s
    · exact Or.inl rfl
    · exact Or.inr (Or.inl rfl)
    · exact Or.inr (Or.inr (Or.inl rfl))
    · exact Or.inr (Or.inr (Or.inr rfl))
  · cases s <;> cases t <;> simp [allowedTransition]
  · cases ok <;> simp [ingestLifecycle, allowedTransition]

/-- C8: the anomaly scorer is deterministic for a fixed input — any two
runs over the same window feature vectors with the same fixed seed
produce identical scores for every window. -/
theorem c8_scorer_deterministic (seed : Nat) (features : List ℚ)
    (out1 out2 : List ℚ)
    (h1 : out1 = anomalyScorer seed features)
    (h2 : out2 = anomalyScorer seed features) : out1 = out2 :=
  h1.trans h2.symm

/-- Witness for C8 at a concrete seed and feature list. -/
theorem c8_scorer_deterministic_witness :
    anomalyScorer 7 [1, 2] = anomalyScorer 7 [1, 2] :=
  c8_scorer_deterministic 7 [1, 2] (anomalyScorer 7 [1, 2]) (anomalyScorer 7 [1, 2]) rfl rfl

/-- C9: level normalization stores WARN and WARNING under the single
canonical label WARNING — any two level tokens from that pair normalize
to the same stored string, so the stored data never contains both
labels. -/
theorem c9_warn_single_canonical (w1 w2 : String)
    (h1 : w1 = "WARN" ∨ w1 = "WARNING") (h2 : w2 = "WARN" ∨ w2 = "WARNING") :
    normalizeLevel w1 = normalizeLevel w2 ∧ normalizeLevel w1 = "WARNING" := by
  rcases h1 with rfl | rfl <;> rcases h2 with rfl | rfl <;>
    exact ⟨by decide, by decide⟩

/-- Witness for C9 at the two concrete level tokens. -/
theorem c9_warn_single_canonical_witness :
    normalizeLevel "WARN" = normalizeLevel "WARNING" ∧ normalizeLevel "WARN" = "WARNING" :=
  c9_warn_single_canonical "WARN" "WARNING" (Or.inl rfl) (Or.inr rfl)

/-- C10: API.request throws exactly when the response is not ok — on
status 401 it clears the stored token and user, sets the location hash
to the login route and throws "Session expired"; on any other non-ok
status it throws the response's detail (or a status-code message); on
204 it returns null; on any other ok status it returns the parsed JSON
body. -/
theorem c10_request_error_contract (st : ClientState) (res : HttpResponse) :
    (isThrown (handleResponse st res).2 = true ↔ resOk res.status = false)
    ∧ (res.status = 401 →
        handleResponse st res =
          ({ st with token := none, user := none, hash := "#/login" },
           RequestResult.thrown "Session expired"))
    ∧ (res.status = 204 → handleResponse st res = (st, RequestResult.okData none))
    ∧ (resOk res.status = true → res.status ≠ 204 →
        handleResponse st res = (st, RequestResult.okData (some res.body)))
    ∧ (res.status ≠ 401 → resOk res.status = false →
        handleResponse st res =
          (st, RequestResult.thrown (detailOrFallback res.status res.body.detail))) := by
  refine ⟨?_, ?_, ?_, ?_, ?_⟩
  · unfold handleResponse
    split
    · next h => rw [h]; simp [isThrown, resOk]
    · split
      · next h => rw [h]; simp [isThrown, resOk]
      · split
        · next h => simp [isThrown, h]
        · next h => simp [isThrown, Bool.eq_false_iff.2 h]
  · intro h; unfold handleResponse; rw [if_pos h]
  · intro h
    have h401 : res.status ≠ 401 := by omega
    unfold handleResponse
    rw [if_neg (by omega), if_pos h]
  · intro hok h204
    have h401 : res.status ≠ 401 := by
      intro h; rw [h] at hok; simp [resOk] at hok
    unfold handleResponse
    rw [if_neg h401, if_neg h204, if_pos hok]
  · intro h401 hnotok
    have h204 : res.status ≠ 204 := by
      intro h; rw [h] at hnotok; simp [resOk] at hnotok
    unfold handleResponse
    rw [if_neg h401, if_neg h204, if_neg (by simp [hnotok])]

/-- Witness for C10 at a concrete 401 response: the stored session is
cleared, the hash is the login route, and the call throws. -/
theorem c10_request_error_contract_witness :
    handleResponse
        { token := some "tok", user := some "alice", hash := "#/dashboard" }
        { status := 401, body := { detail := some "Unauthorized", payload := 0 } }
      = ({ token := none, user := none, hash := "#/login" },
         RequestResult.thrown "Session expired") :=
  (c10_request_error_contract
    { token := some "tok", user := some "alice", hash := "#/dashboard" }
    { status := 401, body := { detail := some "Unauthorized", payload := 0 } }).2.1 rfl

theorem keyMatches_iff (a b : LogEntry) :
    keyMatches a b = true ↔ entryKey a = entryKey b := by
  simp [keyMatches, entryKey, Prod.ext_iff]

theorem ingestFile_map_key (fid : Nat) (lines : List String) :
    (ingestFile fid lines).map entryKey
      = (List.range lines.length).map (fun i => (fid, i + 1)) := by
  unfold ingestFile
  rw [List.map_map]
  have h1 : (entryKey ∘ fun p : Nat × String => mkEntry fid (p.1 + 1) p.2)
      = (fun i => (fid, i + 1)) ∘ Prod.fst := by
    funext p; rfl
  rw [h1, ← List.map_map, List.enum_map_fst]

theorem ingestFile_key_nodup (fid : Nat) (lines : List String) :
    ((ingestFile fid lines).map entryKey).Nodup := by
  rw [ingestFile_map_key]
  refine List.Nodup.map ?_ (List.nodup_range _)
  intro a b h
  simpa using congrArg Prod.snd h

theorem ingestFile_fid (fid : Nat) (lines : List String) :
    ∀ e ∈ ingestFile fid lines, e.log_file_id = fid := by
  intro e he
  unfold ingestFile at he
  obtain ⟨p, _, rfl⟩ := List.mem_map.1 he
  rfl

theorem foldl_insertSkip_fresh :
    ∀ (es table : List LogEntry),
      (∀ e ∈ es, ∀ x ∈ table, entryKey x ≠ entryKey e) →
      (es.map entryKey).Nodup →
      es.foldl insertSkip table = table ++ es := by
  intro es
  induction es with
  | nil => intro table _ _; simp
  | cons e es ih =>
      intro table hfresh hnd
      have hany : (table.any fun x => keyMatches x e) = false := by
        rw [List.any_eq_false]
        intro x hx
        simp only [keyMatches_iff]
        exact hfresh e (List.mem_cons_self e es) x hx
      have hstep : insertSkip table e = table ++ [e] := by
        unfold insertSkip; rw [hany]; rfl
      rw [List.foldl_cons, hstep]
      rw [List.map_cons, List.nodup_cons] at hnd
      have hfresh2 : ∀ e2 ∈ es, ∀ x ∈ table ++ [e], entryKey x ≠ entryKey e2 := by
        intro e2 he2 x hx
        rcases List.mem_append.1 hx with hx1 | hx1
        · exact hfresh e2 (List.mem_cons_of_mem e he2) x hx1
        · rcases List.mem_singleton.1 hx1 with rfl
          intro hk
          exact hnd.1 (hk ▸ List.mem_map_of_mem entryKey he2)
      rw [ih (table ++ [e]) hfresh2 hnd.2, List.append_assoc, List.singleton_append]

theorem foldl_insertSkip_present :
    ∀ (es table : List LogEntry),
      (∀ e ∈ es, ∃ x ∈ table, entryKey x = entryKey e) →
      es.foldl insertSkip table = table := by
  intro es
  induction es with
  | nil => intro table _; rfl
  | cons e es ih =>
      intro table hpres
      have hany : (table.any fun x => keyMatches x e) = true := by
        rw [List.any_eq_true]
        obtain ⟨x, hx, hk⟩ := hpres e (List.mem_cons_self e es)
        exact ⟨x, hx, (keyMatches_iff x e).2 hk⟩
      have hstep : insertSkip table e = table := by
        unfold insertSkip; rw [hany]; rfl
      rw [List.foldl_cons, hstep]
      exact ih table (fun e2 he2 => hpres e2 (List.mem_cons_of_mem e he2))

/-- C1: ingesting a file whose identifier has no rows yet produces
exactly one LogEntry row per input line — the row count for the file
equals the number of input lines, because the line processor yields a
result for every line. -/
theorem c1_one_row_per_line (fid : Nat) (lines : List String) (table : List LogEntry)
    (hfresh : ∀ x ∈ table, x.log_file_id ≠ fid) :
    countFile fid (ingestInto table fid lines) = lines.length := by
  have hfr : ∀ e ∈ ingestFile fid lines, ∀ x ∈ table, entryKey x ≠ entryKey e := by
    intro e he x hx hk
    have hex : x.log_file_id = e.log_file_id := congrArg Prod.fst hk
    exact hfresh x hx (hex.trans (ingestFile_fid fid lines e he))
  unfold ingestInto
  rw [foldl_insertSkip_fresh _ _ hfr (ingestFile_key_nodup fid lines)]
  unfold countFile
  rw [List.countP_append]
  have h0 : table.countP (fun e => e.log_file_id == fid) = 0 := by
    rw [List.countP_eq_zero]
    intro x hx
    simpa using hfresh x hx
  have hall : (ingestFile fid lines).countP (fun e => e.log_file_id == fid)
      = (ingestFile fid lines).length := by
    rw [List.countP_eq_length]
    intro e he
    simpa using ingestFile_fid fid lines e he
  rw [h0, hall, Nat.zero_add]
  unfold ingestFile
  rw [List.length_map, List.enum_length]

/-- Witness for C1: ingesting a two-line file into an empty table
yields exactly two rows for that file. -/
theorem c1_one_row_per_line_witness :
    countFile 7 (ingestInto [] 7 ["alpha", "beta"]) = 2 :=
  c1_one_row_per_line 7 ["alpha", "beta"] [] (by intro x hx; cases hx)

/-- C3: re-ingesting a file whose (log_file_id, line_number) pairs are
all already present leaves the LogEntry table unchanged — duplicate
inserts are skipped, the row count never changes, and no second row for
any pair is created. -/
theorem c3_reingest_idempotent (fid : Nat) (lines : List String) (table : List LogEntry)
    (hpresent : ∀ i, i < lines.length → ∃ x ∈ table, entryKey x = (fid, i + 1)) :
    ingestInto table fid lines = table
    ∧ countFile fid (ingestInto table fid lines) = countFile fid table := by
  have heq : ingestInto table fid lines = table := by
    unfold ingestInto
    apply foldl_insertSkip_present
    intro e he
    have hk : entryKey e ∈ (ingestFile fid lines).map entryKey :=
      List.mem_map_of_mem entryKey he
    rw [ingestFile_map_key] at hk
    obtain ⟨i, hi, hkey⟩ := List.mem_map.1 hk
    obtain ⟨x, hx, hxk⟩ := hpresent i (List.mem_range.1 hi)
    exact ⟨x, hx, hxk.trans hkey⟩
  exact ⟨heq, by rw [heq]⟩

/-- Witness for C3: re-ingesting the single-line file whose row is
already stored changes nothing. -/
theorem c3_reingest_idempotent_witness :
    ingestInto [mkEntry 5 1 "hello world"] 5 ["hello world"] = [mkEntry 5 1 "hello world"]
    ∧ countFile 5 (ingestInto [mkEntry 5 1 "hello world"] 5 ["hello world"])
        = countFile 5 [mkEntry 5 1 "hello world"] :=
  c3_reingest_idempotent 5 ["hello world"] [mkEntry 5 1 "hello world"]
    (by
      intro i hi
      have h0 : i = 0 := by simpa using hi
      subst h0
      exact ⟨mkEntry 5 1 "hello world", List.mem_singleton.2 rfl, rfl⟩)

theorem listMin_le {l : List ℚ} {x : ℚ} (hx : x ∈ l) : listMin l ≤ x := by
  induction l with
  | nil => cases hx
  | cons a l ih =>
      cases l with
      | nil =>
          rcases List.mem_singleton.1 hx with rfl
          exact le_of_eq rfl
      | cons b bs =>
          rcases List.mem_cons.1 hx with rfl | hx2
          · exact min_le_left _ _
          · exact le_trans (min_le_right _ _) (ih hx2)

theorem le_listMax {l : List ℚ} {x : ℚ} (hx : x ∈ l) : x ≤ listMax l := by
  induction l with
  | nil => cases hx
  | cons a l ih =>
      cases l with
      | nil =>
          rcases List.mem_singleton.1 hx with rfl
          exact le_of_eq rfl
      | cons b bs =>
          rcases List.mem_cons.1 hx with rfl | hx2
          · exact le_max_left _ _
          · exact le_trans (ih hx2) (le_max_right _ _)

theorem minMaxRescale_bounds (l : List ℚ) (s : ℚ) (hs : s ∈ minMaxRescale l) :
    0 ≤ s ∧ s ≤ 1 := by
  unfold minMaxRescale at hs
  split at hs
  · obtain ⟨x, _, rfl⟩ := List.mem_map.1 hs
    constructor <;> norm_num
  · next hne =>
      obtain ⟨x, hx, rfl⟩ := List.mem_map.1 hs
      have h1 : listMin l ≤ x := listMin_le hx
      have h2 : x ≤ listMax l := le_listMax hx
      have hlt : listMin l < listMax l :=
        lt_of_le_of_ne (le_trans h1 h2) (fun h => hne h.symm)
      constructor
      · exact div_nonneg (by linarith) (by linarith)
      · rw [div_le_one (by linarith)]
        linarith

/-- C5: every anomaly score emitted by the scorer lies within the
closed unit interval, for every seed and every window feature list. -/
theorem c5_scores_in_unit_interval (seed : Nat) (features : List ℚ) (s : ℚ)
    (hs : s ∈ anomalyScorer seed features) : 0 ≤ s ∧ s ≤ 1 :=
  minMaxRescale_bounds (rawScores seed features) s hs

/-- Witness for C5: a concrete single-window run scores one half, which
lies in the unit interval. -/
theorem c5_scores_in_unit_interval_witness :
    0 ≤ (1 / 2 : ℚ) ∧ (1 / 2 : ℚ) ≤ 1 :=
  c5_scores_in_unit_interval 0 [0] (1 / 2) (by
    show (1 / 2 : ℚ) ∈ minMaxRescale (rawScores 0 [0])
    norm_num [minMaxRescale, rawScores, listMin, listMax, List.enum, lcg])

/-- C7: every clustering run produces at most 20 clusters with
pairwise-distinct labels, and the cluster counts partition the
clustered messages — their sum equals the number of messages, so no
message is counted twice or dropped. -/
theorem c7_clusterer_partition (assign : String → Fin 20) (msgs : List String) :
    (errorClusterer assign msgs).length ≤ 20
    ∧ ((errorClusterer assign msgs).map (fun c => c.count)).sum = msgs.length
    ∧ ((errorClusterer assign msgs).map (fun c => c.label)).Nodup := by
  refine ⟨?_, ?_, ?_⟩
  · unfold errorClusterer
    rw [List.length_map]
    have h := (List.nodup_dedup (msgs.map assign)).length_le_card
    simpa using h
  · unfold errorClusterer
    rw [List.map_map]
    have h : ((fun c : ClusterSummary => c.count) ∘ fun lab =>
        ({ label := lab
           example_message := (msgs.filter (fun m => assign m == lab)).head?
           count := (msgs.map assign).count lab } : ClusterSummary))
        = fun lab => (msgs.map assign).count lab := by
      funext lab; rfl
    rw [h, List.sum_map_count_dedup_eq_length, List.length_map]
  · unfold errorClusterer
    rw [List.map_map]
    have h : ((fun c : ClusterSummary => c.label) ∘ fun lab =>
        ({ label := lab
           example_message := (msgs.filter (fun m => assign m == lab)).head?
           count := (msgs.map assign).count lab } : ClusterSummary))
        = fun lab => lab := by
      funext lab; rfl
    rw [h, List.map_id']
    exact List.nodup_dedup _

theorem sum_map_zero {α : Type} (l : List α) : (l.map (fun _ => (0 : Nat))).sum = 0 := by
  induction l with
  | nil => rfl
  | cons a l ih => simp [ih]

theorem sum_map_addf {α : Type} (l : List α) (f g : α → Nat) :
    (l.map (fun x => f x + g x)).sum = (l.map f).sum + (l.map g).sum := by
  induction l with
  | nil => rfl
  | cons a l ih =>
      simp only [List.map_cons, List.sum_cons, ih]
      omega

theorem window_multiplicity (rStart w k t : Nat) (hw : 0 < w) :
    ((List.range k).map (fun i =>
        if rStart + i * w ≤ t ∧ t < rStart + i * w + w then 1 else 0)).sum
      = if rStart ≤ t ∧ t < rStart + k * w then 1 else 0 := by
  induction k with
  | zero =>
      simp only [List.range_zero, List.map_nil, List.sum_nil, Nat.zero_mul, Nat.add_zero]
      rw [if_neg (by omega)]
  | succ k ih =>
      rw [List.range_succ, List.map_append, List.sum_append, ih]
      have hexp : (k + 1) * w = k * w + w := by ring
      simp only [List.map_cons, List.map_nil, List.sum_cons, List.sum_nil]
      rw [hexp]
      split_ifs <;> omega

theorem windows_count_entry (rStart w k : Nat) (hw : 0 < w) (e : LogEntry) :
    (((List.range k).map (fun i => rStart + i * w)).map
        (fun ws => if tsInWindow w ws e then 1 else 0)).sum
      = if tsInRange rStart (rStart + k * w) e then 1 else 0 := by
  rw [List.map_map]
  cases he : e.timestamp with
  | none =>
      have h1 : ((fun ws => if tsInWindow w ws e then (1 : Nat) else 0) ∘
          fun i => rStart + i * w) = fun _ => (0 : Nat) := by
        funext i
        simp [tsInWindow, he]
      rw [h1, sum_map_zero]
      simp [tsInRange, he]
  | some t =>
      have h1 : ((fun ws => if tsInWindow w ws e then (1 : Nat) else 0) ∘
          fun i => rStart + i * w) = fun i =>
            if rStart + i * w ≤ t ∧ t < rStart + i * w + w then 1 else 0 := by
        funext i
        simp [tsInWindow, he, Bool.and_eq_true, decide_eq_true_eq]
      rw [h1, window_multiplicity rStart w k t hw]
      simp [tsInRange, he, Bool.and_eq_true, decide_eq_true_eq]

theorem windower_sum (rStart w k : Nat) (hw : 0 < w) (entries : List LogEntry) :
    (((List.range k).map (fun i => rStart + i * w)).map
        (windowTotalCount entries w)).sum
      = entries.countP (tsInRange rStart (rStart + k * w)) := by
  induction entries with
  | nil =>
      unfold windowTotalCount
      simp only [List.countP_nil]
      exact sum_map_zero _
  | cons e es ih =>
      unfold windowTotalCount at ih ⊢
      rw [List.countP_cons]
      have h1 : (fun ws => List.countP (tsInWindow w ws) (e :: es)) = fun ws =>
          List.countP (tsInWindow w ws) es + (if tsInWindow w ws e then 1 else 0) := by
        funext ws
        rw [List.countP_cons]
      rw [h1, sum_map_addf, ih, windows_count_entry rStart w k hw e]

theorem windowStarts_aligned (rStart w k : Nat) (hw : 0 < w) (hal : rStart % w = 0) :
    windowStarts rStart (rStart + k * w) w
      = (List.range k).map (fun i => rStart + i * w) := by
  have halign : alignFloor rStart w = rStart := by
    unfold alignFloor
    exact Nat.div_mul_cancel (Nat.dvd_of_mod_eq_zero hal)
  unfold windowStarts numWindows
  rw [halign]
  have h1 : rStart + k * w - rStart + w - 1 = w * k + (w - 1) := by
    have : k * w = w * k := Nat.mul_comm k w
    omega
  rw [h1, Nat.mul_add_div hw, Nat.div_eq_of_lt (by omega), Nat.add_zero]

/-- C6: over a range that is an exact multiple of the window width and
aligned to it, the windower yields exactly range-length/width windows,
the windows are the contiguous half-open width-w intervals from the
range start, and the per-window total counts sum to the number of
entries in the range with non-null timestamp. -/
theorem c6_windower_partition (rStart rEnd w k : Nat) (entries : List LogEntry)
    (hw : 0 < w) (hal : rStart % w = 0) (hk : rEnd = rStart + k * w) :
    (windowStarts rStart rEnd w).length = k
    ∧ windowStarts rStart rEnd w = (List.range k).map (fun i => rStart + i * w)
    ∧ ((windowStarts rStart rEnd w).map (windowTotalCount entries w)).sum
        = entries.countP (tsInRange rStart rEnd) := by
  subst hk
  have hws := windowStarts_aligned rStart w k hw hal
  refine ⟨?_, hws, ?_⟩
  · rw [hws, List.length_map, List.length_range]
  · rw [hws]
    exact windower_sum rStart w k hw entries

/-- Witness for C6: a 10-minute range (600 time units) with 2-minute
windows (120 time units) yields exactly 5 contiguous windows, and the
window totals sum to the in-range entry count. -/
theorem c6_windower_partition_witness :
    (windowStarts 0 600 120).length = 5
    ∧ windowStarts 0 600 120 = (List.range 5).map (fun i => 0 + i * 120)
    ∧ ((windowStarts 0 600 120).map (windowTotalCount
          [{ log_file_id := 1, line_number := 1, raw_line := "r",
             parse_status := ParseStatus.parsed, timestamp := some 130,
             level := some "INFO", service := some "svc", message := some "m",
             parse_error := none, parser_name := none }] 120)).sum
        = List.countP (tsInRange 0 600)
            [{ log_file_id := 1, line_number := 1, raw_line := "r",
               parse_status := ParseStatus.parsed, timestamp := some 130,
               level := some "INFO", service := some "svc", message := some "m",
               parse_error := none, parser_name := none }] :=
  c6_windower_partition 0 600 120 5
    [{ log_file_id := 1, line_number := 1, raw_line := "r",
       parse_status := ParseStatus.parsed, timestamp := some 130,
       level := some "INFO", service := some "svc", message := some "m",
       parse_error := none, parser_name := none }]
    (by norm_num) (by norm_num) (by norm_num)
